import Mathlib

/-!
Shallow embedding of the `ConditionalEscrow` NEAR contract
(`rust-escrow/conditional-escrow/src/lib.rs`) and proofs about its
state machine, accounting invariants and error behaviour.

Modelling conventions:
* `u128`/`u64` machine integers become `Nat`; Rust's `wrapping_add` /
  `wrapping_sub` become explicit arithmetic modulo `2 ^ 128`.
* `UnorderedMap<AccountId, Nat>` becomes an association list with
  distinct keys; `insert` replaces the (first) binding in place when the
  key is present and appends at the end otherwise, matching the
  insertion-order iteration of `UnorderedMap::to_vec`.
* host environment inputs (`env::block_timestamp`, `env::signer_account_id`,
  `env::current_account_id`, `env::attached_deposit`, promise results) are
  explicit parameters.
* a NEAR panic (`env::panic_str`) aborts the invocation and the host rolls
  back every state write of that invocation, so a panicking method is
  embedded as `Except.error code`, carrying no post-state: the persisted
  state after a failed call is the pre-call state.
-/

namespace ConditionalEscrow

abbrev AccountId := String

deriving instance DecidableEq for Except

/-- Modulus of Rust's `u128` arithmetic. -/
def U128MOD : Nat := 2 ^ 128

/-- Rust `u128::wrapping_add` on values below `U128MOD`. -/
def wrapping_add (a b : Nat) : Nat := (a + b) % U128MOD

/-- Rust `u128::wrapping_sub` on values below `U128MOD`. -/
def wrapping_sub (a b : Nat) : Nat := (a + U128MOD - b) % U128MOD

/-- `FT_ATTACHED_DEPOSIT`: 5 NEAR, the fixed deposit attached to the
fungible-token factory call. -/
def FT_ATTACHED_DEPOSIT : Nat := 5000000000000000000000000

/-- Lookup in the deposits map (`UnorderedMap::get`). -/
def mapGet (m : List (AccountId × Nat)) (k : AccountId) : Option Nat :=
  match m with
  | [] => none
  | (k0, v0) :: rest => if k0 = k then some v0 else mapGet rest k

/-- Insert into the deposits map (`UnorderedMap::insert`): replace the
binding in place when the key is present, append otherwise. -/
def mapInsert (m : List (AccountId × Nat)) (k : AccountId) (v : Nat) :
    List (AccountId × Nat) :=
  match m with
  | [] => [(k, v)]
  | (k0, v0) :: rest => if k0 = k then (k, v) :: rest else (k0, v0) :: mapInsert rest k v

/-- The contract state struct `ConditionalEscrow`. -/
structure EscrowState where
  deposits : List (AccountId × Nat)
  expires_at : Nat
  total_funds : Nat
  funding_amount_limit : Nat
  unpaid_funding_amount : Nat
  dao_factory_account_id : AccountId
  ft_factory_account_id : AccountId
  metadata_url : String
  dao_name : String
  is_dao_created : Bool
deriving DecidableEq, Repr

/-- Constructor `ConditionalEscrow::new` (the `env::state_exists`
re-initialisation guard is a host concern and is not modelled). -/
def new (expires_at : Nat) (funding_amount_limit : Nat)
    (dao_factory_account_id ft_factory_account_id : AccountId)
    (metadata_url : String) : Except String EscrowState :=
  if funding_amount_limit < FT_ATTACHED_DEPOSIT then
    Except.error "ERR_INSUFFICIENT_FUNDS_LIMIT"
  else
    Except.ok
      { deposits := []
        total_funds := 0
        funding_amount_limit := funding_amount_limit
        unpaid_funding_amount := funding_amount_limit
        expires_at := expires_at
        dao_factory_account_id := dao_factory_account_id
        ft_factory_account_id := ft_factory_account_id
        metadata_url := metadata_url
        dao_name := ""
        is_dao_created := false }

/-- `deposits_of`: recorded balance of a payee, `0` when absent. -/
def deposits_of (s : EscrowState) (payee : AccountId) : Nat :=
  match mapGet s.deposits payee with
  | some deposit => deposit
  | none => 0

/-- `get_shares_of`: `deposit * 1000 / funding_amount_limit`, `0` when absent. -/
def get_shares_of (s : EscrowState) (payee : AccountId) : Nat :=
  match mapGet s.deposits payee with
  | some deposit => deposit * 1000 / s.funding_amount_limit
  | none => 0

/-- `get_deposits`: the full deposits table (`UnorderedMap::to_vec`). -/
def get_deposits (s : EscrowState) : List (AccountId × Nat) :=
  s.deposits

/-- `get_total_funds`. -/
def get_total_funds (s : EscrowState) : Nat :=
  s.total_funds

/-- `get_funding_amount_limit`. -/
def get_funding_amount_limit (s : EscrowState) : Nat :=
  s.funding_amount_limit

/-- `get_unpaid_funding_amount`. -/
def get_unpaid_funding_amount (s : EscrowState) : Nat :=
  s.unpaid_funding_amount

/-- `get_dao_name`. -/
def get_dao_name (s : EscrowState) : String :=
  s.dao_name

/-- `get_deposit_accounts`: roster of depositor account ids, in table order. -/
def get_deposit_accounts (s : EscrowState) : List String :=
  s.deposits.map (fun i => i.1)

/-- `has_contract_expired`: `expires_at < env::block_timestamp()`. -/
def has_contract_expired (s : EscrowState) (now : Nat) : Bool :=
  decide (s.expires_at < now)

/-- `is_funding_reached`: `total_funds >= funding_amount_limit`. -/
def is_funding_reached (s : EscrowState) : Bool :=
  decide (get_funding_amount_limit s ≤ get_total_funds s)

/-- `is_deposit_allowed`. -/
def is_deposit_allowed (s : EscrowState) (now : Nat) : Bool :=
  !has_contract_expired s now && !is_funding_reached s

/-- `is_withdrawal_allowed`. -/
def is_withdrawal_allowed (s : EscrowState) (now : Nat) : Bool :=
  has_contract_expired s now && !is_funding_reached s

/-- Method `deposit`, with the host environment made explicit: the
current (contract) account, the signer, the attached amount, and the
block timestamp. -/
def deposit (s : EscrowState) (current_account signer_account : AccountId)
    (attached_deposit : Nat) (now : Nat) : Except String EscrowState :=
  if current_account = signer_account then
    Except.error "ERR_OWNER_SHOULD_NOT_DEPOSIT"
  else if attached_deposit = 0 then
    Except.error "ERR_DEPOSIT_SHOULD_NOT_BE_0"
  else if !is_deposit_allowed s now then
    Except.error "ERR_DEPOSIT_NOT_ALLOWED"
  else if get_unpaid_funding_amount s < attached_deposit then
    Except.error "ERR_DEPOSIT_NOT_ALLOWED"
  else
    let amount := attached_deposit
    let payee := signer_account
    let current_balance := deposits_of s payee
    let new_balance := wrapping_add current_balance amount
    Except.ok
      { s with
        deposits := mapInsert s.deposits payee new_balance
        total_funds := wrapping_add s.total_funds amount
        unpaid_funding_amount := wrapping_sub s.unpaid_funding_amount amount }

/-- Method `withdraw`; the returned `Nat` is the amount handed to the
payment-transfer primitive. -/
def withdraw (s : EscrowState) (signer_account : AccountId) (now : Nat) :
    Except String (Nat × EscrowState) :=
  if !is_withdrawal_allowed s now then
    Except.error "ERR_WITHDRAWAL_NOT_ALLOWED"
  else
    let payee := signer_account
    let payment := deposits_of s payee
    Except.ok
      (payment,
        { s with
          deposits := mapInsert s.deposits payee 0
          total_funds := wrapping_sub s.total_funds payment
          unpaid_funding_amount := wrapping_add s.unpaid_funding_amount payment })

/-- Method `delegate_funds`, restricted to its guard logic and state
effect: the contract state itself is not mutated by a successful call
(the mutation happens later in `on_delegate_callback`); the promise
construction is an external side effect outside the accounting layer. -/
def delegate_funds (s : EscrowState) (dao_name : String) (now : Nat) :
    Except String EscrowState :=
  if is_deposit_allowed s now || is_withdrawal_allowed s now then
    Except.error "ERR_DELEGATE_NOT_ALLOWED"
  else if s.total_funds < FT_ATTACHED_DEPOSIT then
    Except.error "ERR_TOTAL_FUNDS_OVERFLOW"
  else
    Except.ok s

/-- Promise results as delivered to the callback (`near_sdk::PromiseResult`;
the `NotReady` variant never reaches a `then`-continuation and the source
treats every non-`Successful` variant as failure). -/
inductive PromiseResult where
  | Successful (payload : String)
  | Failed
deriving DecidableEq, Repr

/-- JSON deserialisation of a boolean result payload
(`serde_json::from_slice::<bool>`). -/
def parseBool (payload : String) : Option Bool :=
  if payload = "true" then some true
  else if payload = "false" then some false
  else none

/-- Method `on_delegate_callback`, over the list of promise results the
host delivers (`env::promise_result(0)` and `env::promise_result(1)` after
the `promise_results_count() == 2` check). A deserialisation failure of a
`Successful` payload is the `unwrap` panic. -/
def on_delegate_callback (s : EscrowState) (dao_name : String)
    (results : List PromiseResult) : Except String (Bool × EscrowState) :=
  match results with
  | [r0, r1] =>
    match r0 with
    | PromiseResult.Successful payload0 =>
      match parseBool payload0 with
      | none => Except.error "ERR_DESERIALIZE_RESULT"
      | some res0 =>
        let step :=
          if res0 then
            ({ s with total_funds := 0, dao_name := dao_name, is_dao_created := true }, true)
          else (s, false)
        match r1 with
        | PromiseResult.Successful payload1 =>
          match parseBool payload1 with
          | none => Except.error "ERR_DESERIALIZE_RESULT"
          | some res1 => Except.ok (step.2 && res1, step.1)
        | PromiseResult.Failed => Except.error "ERR_CREATE_FT_UNSUCCESSFUL"
    | PromiseResult.Failed => Except.error "ERR_CREATE_DAO_UNSUCCESSFUL"
  | _ => Except.error "ERR_CALLBACK_METHOD"

/-- Sum of all recorded balances. -/
def sumVals (m : List (AccountId × Nat)) : Nat :=
  (m.map Prod.snd).sum

/-- Accounting invariant of the pre-delegation phase: the funding limit
fits in `u128`, the balances sum to `total_funds`, the limit is never
exceeded, and the unpaid headroom is exactly the distance to the limit. -/
def Inv (s : EscrowState) : Prop :=
  s.funding_amount_limit < U128MOD ∧
  sumVals s.deposits = s.total_funds ∧
  s.total_funds ≤ s.funding_amount_limit ∧
  s.unpaid_funding_amount = s.funding_amount_limit - s.total_funds

instance (s : EscrowState) : Decidable (Inv s) := by
  unfold Inv; infer_instance

/-- Post-state of a successful `withdraw` by `payee` (the `else` branch of
`withdraw`, named so that theorems can refer to it). -/
def wdState (s : EscrowState) (payee : AccountId) : EscrowState :=
  { s with
    deposits := mapInsert s.deposits payee 0
    total_funds := wrapping_sub s.total_funds (deposits_of s payee)
    unpaid_funding_amount := wrapping_add s.unpaid_funding_amount (deposits_of s payee) }

/-- States reachable from construction through any sequence of `deposit`,
`withdraw` and `on_delegate_callback` invocations. The `u128` typing of
`funding_amount_limit` (a `U128` argument of `new`) and of the attached
deposit is carried as side conditions. -/
inductive Reach : EscrowState → Prop where
  | init (expires_at funding_amount_limit : Nat) (dfa ffa : AccountId) (mu : String)
      (s : EscrowState) (hlim : funding_amount_limit < U128MOD)
      (h : new expires_at funding_amount_limit dfa ffa mu = Except.ok s) : Reach s
  | deposit_step (s : EscrowState) (cur sig : AccountId) (amt now : Nat) (s' : EscrowState)
      (hs : Reach s) (hamt : amt < U128MOD)
      (h : deposit s cur sig amt now = Except.ok s') : Reach s'
  | withdraw_step (s : EscrowState) (sig : AccountId) (now : Nat) (p : Nat)
      (s' : EscrowState) (hs : Reach s)
      (h : withdraw s sig now = Except.ok (p, s')) : Reach s'
  | callback_step (s : EscrowState) (name : String) (rs : List PromiseResult) (b : Bool)
      (s' : EscrowState) (hs : Reach s)
      (h : on_delegate_callback s name rs = Except.ok (b, s')) : Reach s'

/-- States reachable from construction through `deposit` and `withdraw`
invocations only (no delegation callback yet). -/
inductive ReachDW : EscrowState → Prop where
  | init (expires_at funding_amount_limit : Nat) (dfa ffa : AccountId) (mu : String)
      (s : EscrowState) (hlim : funding_amount_limit < U128MOD)
      (h : new expires_at funding_amount_limit dfa ffa mu = Except.ok s) : ReachDW s
  | deposit_step (s : EscrowState) (cur sig : AccountId) (amt now : Nat) (s' : EscrowState)
      (hs : ReachDW s) (hamt : amt < U128MOD)
      (h : deposit s cur sig amt now = Except.ok s') : ReachDW s'
  | withdraw_step (s : EscrowState) (sig : AccountId) (now : Nat) (p : Nat)
      (s' : EscrowState) (hs : ReachDW s)
      (h : withdraw s sig now = Except.ok (p, s')) : ReachDW s'

/-! Helper lemmas about the modular arithmetic and the deposits map. -/

theorem wrapping_add_eq_of_lt {a b : Nat} (h : a + b < U128MOD) :
    wrapping_add a b = a + b := by
  unfold wrapping_add
  exact Nat.mod_eq_of_lt h

theorem wrapping_sub_eq_of_le {a b : Nat} (hba : b ≤ a) (ha : a < U128MOD) :
    wrapping_sub a b = a - b := by
  unfold wrapping_sub
  have h1 : a + U128MOD - b = (a - b) + U128MOD := by omega
  rw [h1, Nat.add_mod_right]
  exact Nat.mod_eq_of_lt (by omega)

theorem mapGet_insert_self (m : List (AccountId × Nat)) (k : AccountId) (v : Nat) :
    mapGet (mapInsert m k v) k = some v := by
  induction m with
  | nil => simp [mapInsert, mapGet]
  | cons hd tl ih =>
    obtain ⟨k0, v0⟩ := hd
    by_cases hk : k0 = k
    · simp [mapInsert, hk, mapGet]
    · simp [mapInsert, hk, mapGet, ih]

theorem mapGet_insert_ne (m : List (AccountId × Nat)) (k k' : AccountId) (v : Nat)
    (hne : k' ≠ k) : mapGet (mapInsert m k v) k' = mapGet m k' := by
  have hkk' : k ≠ k' := Ne.symm hne
  induction m with
  | nil => simp [mapInsert, mapGet, hkk']
  | cons hd tl ih =>
    obtain ⟨k0, v0⟩ := hd
    by_cases hk : k0 = k
    · subst hk
      simp [mapInsert, mapGet, hkk']
    · simp [mapInsert, hk, mapGet, ih]

/-- Value read by `deposits_of` before an insert, as a `Nat` default. -/
theorem sumVals_insert (m : List (AccountId × Nat)) (k : AccountId) (v : Nat) :
    sumVals (mapInsert m k v) + (mapGet m k).getD 0 = sumVals m + v := by
  induction m with
  | nil => simp [mapInsert, mapGet, sumVals]
  | cons hd tl ih =>
    obtain ⟨k0, v0⟩ := hd
    by_cases hk : k0 = k
    · subst hk
      simp [mapInsert, mapGet, sumVals]
      omega
    · simp only [mapInsert, if_neg hk, mapGet, sumVals, List.map_cons, List.sum_cons]
      simp only [sumVals] at ih
      omega

theorem getD_le_sumVals (m : List (AccountId × Nat)) (k : AccountId) :
    (mapGet m k).getD 0 ≤ sumVals m := by
  induction m with
  | nil => simp [mapGet, sumVals]
  | cons hd tl ih =>
    obtain ⟨k0, v0⟩ := hd
    by_cases hk : k0 = k
    · simp [mapGet, hk, sumVals]
    · simp only [mapGet, if_neg hk, sumVals, List.map_cons, List.sum_cons]
      simp only [sumVals] at ih
      exact le_trans ih (Nat.le_add_left _ _)

theorem deposits_of_eq_getD (s : EscrowState) (p : AccountId) :
    deposits_of s p = (mapGet s.deposits p).getD 0 := by
  unfold deposits_of
  cases mapGet s.deposits p <;> simp

theorem mem_keys_of_mapGet_some {m : List (AccountId × Nat)} {k : AccountId}
    {v : Nat} (h : mapGet m k = some v) : k ∈ m.map Prod.fst := by
  induction m with
  | nil => simp [mapGet] at h
  | cons hd tl ih =>
    obtain ⟨k0, v0⟩ := hd
    by_cases hk : k0 = k
    · simp [hk]
    · simp only [mapGet, hk, if_false] at h
      simp [ih h]

/-! Success characterisations of the state-changing operations. -/

theorem new_ok_iff (expires_at funding_amount_limit : Nat) (dfa ffa : AccountId)
    (mu : String) (s : EscrowState) :
    new expires_at funding_amount_limit dfa ffa mu = Except.ok s ↔
      FT_ATTACHED_DEPOSIT ≤ funding_amount_limit ∧
      s = { deposits := []
            total_funds := 0
            funding_amount_limit := funding_amount_limit
            unpaid_funding_amount := funding_amount_limit
            expires_at := expires_at
            dao_factory_account_id := dfa
            ft_factory_account_id := ffa
            metadata_url := mu
            dao_name := ""
            is_dao_created := false } := by
  unfold new
  split_ifs with h1
  · constructor
    · intro h
      simp at h
    · rintro ⟨hle, -⟩
      exact absurd hle (Nat.not_le.mpr h1)
  · push_neg at h1
    simp [h1, eq_comm]

theorem deposit_ok_iff (s : EscrowState) (cur sig : AccountId) (a now : Nat)
    (s' : EscrowState) :
    deposit s cur sig a now = Except.ok s' ↔
      cur ≠ sig ∧ a ≠ 0 ∧ is_deposit_allowed s now = true ∧
      a ≤ s.unpaid_funding_amount ∧
      s' = { s with
             deposits := mapInsert s.deposits sig (wrapping_add (deposits_of s sig) a)
             total_funds := wrapping_add s.total_funds a
             unpaid_funding_amount := wrapping_sub s.unpaid_funding_amount a } := by
  unfold deposit
  split_ifs with h1 h2 h3 h4
  · simp [h1]
  · simp [h2]
  · simp only [Bool.not_eq_true'] at h3
    simp [h1, h2, h3]
  · simp only [get_unpaid_funding_amount] at h4
    simp [h1, h2, h4]
  · simp only [Bool.not_eq_true', Bool.not_eq_false] at h3
    simp only [get_unpaid_funding_amount, not_lt] at h4
    simp [h1, h2, h3, h4, eq_comm]

theorem withdraw_ok_iff (s : EscrowState) (sig : AccountId) (now : Nat)
    (r : Nat × EscrowState) :
    withdraw s sig now = Except.ok r ↔
      is_withdrawal_allowed s now = true ∧ r = (deposits_of s sig, wdState s sig) := by
  unfold withdraw wdState
  split_ifs with h1
  · simp only [Bool.not_eq_true'] at h1
    simp [h1]
  · simp only [Bool.not_eq_true', Bool.not_eq_false] at h1
    simp [h1, eq_comm]

theorem callback_ok_cases (s : EscrowState) (name : String) (rs : List PromiseResult)
    (b : Bool) (s' : EscrowState)
    (h : on_delegate_callback s name rs = Except.ok (b, s')) :
    s' = s ∨ s' = { s with total_funds := 0, dao_name := name, is_dao_created := true } := by
  unfold on_delegate_callback at h
  match rs with
  | [] => simp at h
  | [r0] => simp at h
  | r0 :: r1 :: r2 :: rest => simp at h
  | [r0, r1] =>
    match r0 with
    | PromiseResult.Failed => simp at h
    | PromiseResult.Successful p0 =>
      simp only at h
      match hp0 : parseBool p0 with
      | none => rw [hp0] at h; simp at h
      | some res0 =>
        rw [hp0] at h
        match r1 with
        | PromiseResult.Failed => simp at h
        | PromiseResult.Successful p1 =>
          simp only at h
          match hp1 : parseBool p1 with
          | none => rw [hp1] at h; simp at h
          | some res1 =>
            rw [hp1] at h
            simp only [Except.ok.injEq, Prod.mk.injEq] at h
            cases res0 with
            | true => right; exact h.2.symm
            | false => left; exact h.2.symm

/-! Preservation of the accounting invariant. -/

theorem Inv_new (expires_at funding_amount_limit : Nat) (dfa ffa : AccountId)
    (mu : String) (s : EscrowState) (hlim : funding_amount_limit < U128MOD)
    (h : new expires_at funding_amount_limit dfa ffa mu = Except.ok s) : Inv s := by
  obtain ⟨hle, rfl⟩ := (new_ok_iff _ _ _ _ _ _).mp h
  refine ⟨hlim, ?_, ?_, ?_⟩ <;> simp [sumVals]

theorem Inv_deposit (s : EscrowState) (cur sig : AccountId) (a now : Nat)
    (s' : EscrowState) (hInv : Inv s) (h : deposit s cur sig a now = Except.ok s') :
    Inv s' := by
  obtain ⟨hM, hsum, hle, hun⟩ := hInv
  obtain ⟨-, -, hallow, ha, rfl⟩ := (deposit_ok_iff _ _ _ _ _ _).mp h
  have hreach : is_funding_reached s = false := by
    unfold is_deposit_allowed at hallow
    simp only [Bool.and_eq_true, Bool.not_eq_true'] at hallow
    exact hallow.2
  have htot : s.total_funds < s.funding_amount_limit := by
    unfold is_funding_reached get_funding_amount_limit get_total_funds at hreach
    simpa using hreach
  have hbal : deposits_of s sig ≤ s.total_funds := by
    rw [deposits_of_eq_getD, ← hsum]
    exact getD_le_sumVals _ _
  have htota : s.total_funds + a < U128MOD := by omega
  have hbala : deposits_of s sig + a < U128MOD := by omega
  have hun' : s.unpaid_funding_amount < U128MOD := by omega
  refine ⟨hM, ?_, ?_, ?_⟩
  · show sumVals (mapInsert s.deposits sig (wrapping_add (deposits_of s sig) a)) =
      wrapping_add s.total_funds a
    rw [wrapping_add_eq_of_lt hbala, wrapping_add_eq_of_lt htota]
    have hsi := sumVals_insert s.deposits sig (deposits_of s sig + a)
    rw [← deposits_of_eq_getD] at hsi
    omega
  · show wrapping_add s.total_funds a ≤ s.funding_amount_limit
    rw [wrapping_add_eq_of_lt htota]
    omega
  · show wrapping_sub s.unpaid_funding_amount a =
      s.funding_amount_limit - wrapping_add s.total_funds a
    rw [wrapping_add_eq_of_lt htota, wrapping_sub_eq_of_le ha hun']
    omega

theorem Inv_withdraw (s : EscrowState) (sig : AccountId) (now : Nat) (p : Nat)
    (s' : EscrowState) (hInv : Inv s) (h : withdraw s sig now = Except.ok (p, s')) :
    Inv s' := by
  obtain ⟨hM, hsum, hle, hun⟩ := hInv
  obtain ⟨hallow, hr⟩ := (withdraw_ok_iff _ _ _ _).mp h
  obtain ⟨-, rfl⟩ := Prod.mk.injEq .. ▸ Prod.ext_iff.mp hr
  have hreach : is_funding_reached s = false := by
    unfold is_withdrawal_allowed at hallow
    simp only [Bool.and_eq_true, Bool.not_eq_true'] at hallow
    exact hallow.2
  have htot : s.total_funds < s.funding_amount_limit := by
    unfold is_funding_reached get_funding_amount_limit get_total_funds at hreach
    simpa using hreach
  have hbal : deposits_of s sig ≤ s.total_funds := by
    rw [deposits_of_eq_getD, ← hsum]
    exact getD_le_sumVals _ _
  have hun' : s.unpaid_funding_amount + deposits_of s sig < U128MOD := by omega
  refine ⟨hM, ?_, ?_, ?_⟩
  · show sumVals (mapInsert s.deposits sig 0) =
      wrapping_sub s.total_funds (deposits_of s sig)
    rw [wrapping_sub_eq_of_le hbal (by omega)]
    have hsi := sumVals_insert s.deposits sig 0
    rw [← deposits_of_eq_getD] at hsi
    omega
  · show wrapping_sub s.total_funds (deposits_of s sig) ≤ s.funding_amount_limit
    rw [wrapping_sub_eq_of_le hbal (by omega)]
    omega
  · show wrapping_add s.unpaid_funding_amount (deposits_of s sig) =
      s.funding_amount_limit - wrapping_sub s.total_funds (deposits_of s sig)
    rw [wrapping_sub_eq_of_le hbal (by omega), wrapping_add_eq_of_lt hun']
    omega

theorem ReachDW_inv (s : EscrowState) (h : ReachDW s) : Inv s := by
  induction h with
  | init ea lim dfa ffa mu t hlim hnew => exact Inv_new ea lim dfa ffa mu t hlim hnew
  | deposit_step t cur sig amt now t' hs hamt hok ih =>
    exact Inv_deposit t cur sig amt now t' ih hok
  | withdraw_step t sig now p t' hs hok ih =>
    exact Inv_withdraw t sig now p t' ih hok

theorem Reach_limit (s : EscrowState) (h : Reach s) :
    FT_ATTACHED_DEPOSIT ≤ s.funding_amount_limit := by
  induction h with
  | init ea lim dfa ffa mu t hlim hnew =>
    obtain ⟨hle, rfl⟩ := (new_ok_iff _ _ _ _ _ _).mp hnew
    exact hle
  | deposit_step t cur sig amt now t' hs hamt hok ih =>
    obtain ⟨-, -, -, -, rfl⟩ := (deposit_ok_iff _ _ _ _ _ _).mp hok
    exact ih
  | withdraw_step t sig now p t' hs hok ih =>
    obtain ⟨-, hr⟩ := (withdraw_ok_iff _ _ _ _).mp hok
    obtain ⟨-, rfl⟩ := Prod.mk.injEq .. ▸ Prod.ext_iff.mp hr
    exact ih
  | callback_step t name rs b t' hs hok ih =>
    rcases callback_ok_cases t name rs b t' hok with rfl | rfl
    · exact ih
    · exact ih

/-! Sample states used by witnesses and counterexamples. -/

/-- Freshly constructed escrow: deadline 10, funding limit exactly
`FT_ATTACHED_DEPOSIT` (the smallest limit `new` accepts). -/
def sInit : EscrowState :=
  { deposits := []
    expires_at := 10
    total_funds := 0
    funding_amount_limit := FT_ATTACHED_DEPOSIT
    unpaid_funding_amount := FT_ATTACHED_DEPOSIT
    dao_factory_account_id := "dao-factory.near"
    ft_factory_account_id := "ft-factory.near"
    metadata_url := "metadata.json"
    dao_name := ""
    is_dao_created := false }

/-- `sInit` after bob deposits the full funding limit (funding reached). -/
def sFunded : EscrowState :=
  { sInit with
    deposits := [("bob.near", FT_ATTACHED_DEPOSIT)]
    total_funds := FT_ATTACHED_DEPOSIT
    unpaid_funding_amount := 0 }

/-- `sFunded` after a fully successful delegation callback. -/
def sDelegated : EscrowState :=
  { sFunded with total_funds := 0, dao_name := "dao1", is_dao_created := true }

/-- `sInit` after bob deposits 1 yoctoNEAR. -/
def sOne : EscrowState :=
  { sInit with
    deposits := [("bob.near", 1)]
    total_funds := 1
    unpaid_funding_amount := FT_ATTACHED_DEPOSIT - 1 }

/-- `sInit` after bob deposits 3 yoctoNEAR. -/
def sB : EscrowState :=
  { sInit with
    deposits := [("bob.near", 3)]
    total_funds := 3
    unpaid_funding_amount := FT_ATTACHED_DEPOSIT - 3 }

/-! Claim theorems. -/

/-- C1 counterexample: the claim says the delegation window is exactly
"expired AND funding reached". In `sFunded` at time 5 the contract is NOT
expired (`expires_at = 10`), yet `delegate_funds` succeeds instead of
failing with `ERR_DELEGATE_NOT_ALLOWED`, because the funding limit is
reached: the gate ignores expiry. -/
theorem delegate_gate_cex :
    has_contract_expired sFunded 5 = false
  ∧ is_funding_reached sFunded = true
  ∧ delegate_funds sFunded "dao1" 5 = Except.ok sFunded := by
  refine ⟨by decide, by decide, ?_⟩
  decide

/-- C1 (amended): `delegate_funds` avoids the `ERR_DELEGATE_NOT_ALLOWED`
rejection exactly when the funding limit has been reached — regardless of
expiry; and whenever deposit or withdrawal is allowed it fails with
exactly that error. -/
theorem delegate_gate (s : EscrowState) (dao_name : String) (now : Nat) :
    (delegate_funds s dao_name now ≠ Except.error "ERR_DELEGATE_NOT_ALLOWED" ↔
      is_funding_reached s = true)
  ∧ ((is_deposit_allowed s now = true ∨ is_withdrawal_allowed s now = true) →
      delegate_funds s dao_name now = Except.error "ERR_DELEGATE_NOT_ALLOWED") := by
  unfold delegate_funds is_deposit_allowed is_withdrawal_allowed
  cases hexp : has_contract_expired s now <;> cases hfr : is_funding_reached s <;>
    split_ifs <;> simp_all

/-- C1 witness: in the funded state the gate passes; in the fresh (open)
state, where deposits are allowed, it fails with `ERR_DELEGATE_NOT_ALLOWED`. -/
theorem delegate_gate_witness :
    delegate_funds sFunded "dao1" 5 ≠ Except.error "ERR_DELEGATE_NOT_ALLOWED"
  ∧ delegate_funds sInit "dao1" 5 = Except.error "ERR_DELEGATE_NOT_ALLOWED" :=
  ⟨(delegate_gate sFunded "dao1" 5).1.mpr (by decide),
   (delegate_gate sInit "dao1" 5).2 (Or.inl (by decide))⟩

/-- C2 counterexample: `sDelegated` is reachable (construct, deposit the
full limit, run a fully successful delegation callback), and in it
`unpaid_funding_amount = 0` while `funding_amount_limit - total_funds`
is the whole limit: the successful callback zeroes `total_funds` without
restoring the headroom, breaking the claimed invariant. -/
theorem unpaid_headroom_cex :
    Reach sDelegated
  ∧ sDelegated.unpaid_funding_amount ≠
      sDelegated.funding_amount_limit - sDelegated.total_funds := by
  constructor
  · apply Reach.callback_step sFunded "dao1"
      [PromiseResult.Successful "true", PromiseResult.Successful "true"] true sDelegated
    · apply Reach.deposit_step sInit "escrow.near" "bob.near" FT_ATTACHED_DEPOSIT 5 sFunded
      · exact Reach.init 10 FT_ATTACHED_DEPOSIT "dao-factory.near" "ft-factory.near"
          "metadata.json" sInit (by decide) (by decide)
      · decide
      · decide
    · decide
  · decide

/-- C2 (amended): in every state reachable after construction by deposit
and withdraw operations alone (before any successful delegation
callback), `unpaid_funding_amount` equals
`funding_amount_limit - total_funds` and `total_funds` never exceeds the
limit, so the headroom is never negative. -/
theorem unpaid_headroom_eq (s : EscrowState) (h : ReachDW s) :
    s.unpaid_funding_amount = s.funding_amount_limit - s.total_funds
  ∧ s.total_funds ≤ s.funding_amount_limit := by
  obtain ⟨-, -, hle, hun⟩ := ReachDW_inv s h
  exact ⟨hun, hle⟩

/-- C2 witness: the invariant holds in the deposit-reachable state `sFunded`. -/
theorem unpaid_headroom_eq_witness :
    sFunded.unpaid_funding_amount = sFunded.funding_amount_limit - sFunded.total_funds
  ∧ sFunded.total_funds ≤ sFunded.funding_amount_limit := by
  apply unpaid_headroom_eq
  apply ReachDW.deposit_step sInit "escrow.near" "bob.near" FT_ATTACHED_DEPOSIT 5 sFunded
  · exact ReachDW.init 10 FT_ATTACHED_DEPOSIT "dao-factory.near" "ft-factory.near"
      "metadata.json" sInit (by decide) (by decide)
  · decide
  · decide

/-- C3: `on_delegate_callback` on two results: both `Successful("true")`
zeroes `total_funds`, stores the requested dao name, sets
`is_dao_created` and returns `true`; if either result is `Failed` the
call aborts with an error (so, by the host's rollback of a panicking
invocation, the persisted state is the pre-call state); both
`Successful("false")` returns `false` with the state unchanged. -/
theorem on_delegate_callback_spec (s : EscrowState) (name : String) :
    on_delegate_callback s name
      [PromiseResult.Successful "true", PromiseResult.Successful "true"] =
      Except.ok (true, { s with total_funds := 0, dao_name := name, is_dao_created := true })
  ∧ (∀ r0 r1 : PromiseResult, (r0 = PromiseResult.Failed ∨ r1 = PromiseResult.Failed) →
      ∃ e, on_delegate_callback s name [r0, r1] = Except.error e)
  ∧ on_delegate_callback s name
      [PromiseResult.Successful "false", PromiseResult.Successful "false"] =
      Except.ok (false, s) := by
  refine ⟨rfl, ?_, rfl⟩
  rintro r0 r1 (rfl | rfl)
  · exact ⟨"ERR_CREATE_DAO_UNSUCCESSFUL", rfl⟩
  · cases r0 with
    | Failed => exact ⟨"ERR_CREATE_DAO_UNSUCCESSFUL", rfl⟩
    | Successful p =>
      cases hp : parseBool p with
      | none =>
        exact ⟨"ERR_DESERIALIZE_RESULT", by simp [on_delegate_callback, hp]⟩
      | some b =>
        exact ⟨"ERR_CREATE_FT_UNSUCCESSFUL", by simp [on_delegate_callback, hp]⟩

/-- C3 witness: both success cases evaluated on the concrete state `sInit`. -/
theorem on_delegate_callback_spec_witness :
    on_delegate_callback sInit "dao1"
      [PromiseResult.Successful "true", PromiseResult.Successful "true"] =
      Except.ok (true, { sInit with total_funds := 0, dao_name := "dao1", is_dao_created := true })
  ∧ on_delegate_callback sInit "dao1"
      [PromiseResult.Successful "false", PromiseResult.Successful "false"] =
      Except.ok (false, sInit) :=
  ⟨(on_delegate_callback_spec sInit "dao1").1, (on_delegate_callback_spec sInit "dao1").2.2⟩

/-- C4 counterexample: the claim says the contract counts as expired when
the block timestamp equals `expires_at`. In `sInit` (`expires_at = 10`)
at time 10 the contract is NOT expired and deposits are still allowed:
the source comparison `expires_at < block_timestamp` is strict. -/
theorem has_expired_cex :
    has_contract_expired sInit 10 = false
  ∧ is_deposit_allowed sInit 10 = true := by
  decide

/-- C4 (amended): `has_contract_expired` returns true iff the block
timestamp is strictly greater than `expires_at`; at the instant
`now = expires_at` the contract is not yet expired, so deposits are
allowed exactly when funding has not been reached. -/
theorem has_expired_iff (s : EscrowState) (now : Nat) :
    (has_contract_expired s now = true ↔ s.expires_at < now)
  ∧ is_deposit_allowed s s.expires_at = !is_funding_reached s := by
  constructor
  · unfold has_contract_expired
    simp
  · unfold is_deposit_allowed has_contract_expired
    simp

/-- C4 witness: `sInit` (deadline 10) is expired at time 11, and at time
10 deposits are allowed since funding is unreached. -/
theorem has_expired_iff_witness :
    has_contract_expired sInit 11 = true
  ∧ is_deposit_allowed sInit 10 = !is_funding_reached sInit :=
  ⟨(has_expired_iff sInit 11).1.mpr (by decide), (has_expired_iff sInit 10).2⟩

/-- C5: a successful `deposit` of amount `a` by signer `sig` (all four
preconditions hold, and the pre-state satisfies the accounting invariant
of reachable states) credits exactly `a` to `sig`, grows `total_funds`
by exactly `a`, shrinks `unpaid_funding_amount` by exactly `a`, and
leaves every other depositor balance unchanged. -/
theorem deposit_spec (s : EscrowState) (cur sig : AccountId) (a now : Nat)
    (s' : EscrowState) (hInv : Inv s) (h : deposit s cur sig a now = Except.ok s') :
    deposits_of s' sig = deposits_of s sig + a
  ∧ get_total_funds s' = get_total_funds s + a
  ∧ get_unpaid_funding_amount s' + a = get_unpaid_funding_amount s
  ∧ ∀ q, q ≠ sig → deposits_of s' q = deposits_of s q := by
  obtain ⟨hM, hsum, hle, hun⟩ := hInv
  obtain ⟨-, -, hallow, ha, hs2⟩ := (deposit_ok_iff _ _ _ _ _ _).mp h
  have hbal : deposits_of s sig ≤ s.total_funds := by
    rw [deposits_of_eq_getD, ← hsum]
    exact getD_le_sumVals _ _
  have htota : s.total_funds + a < U128MOD := by omega
  have hbala : deposits_of s sig + a < U128MOD := by omega
  have hdep : s'.deposits = mapInsert s.deposits sig (wrapping_add (deposits_of s sig) a) := by
    rw [hs2]
  have htf : s'.total_funds = wrapping_add s.total_funds a := by rw [hs2]
  have huf : s'.unpaid_funding_amount = wrapping_sub s.unpaid_funding_amount a := by rw [hs2]
  refine ⟨?_, ?_, ?_, ?_⟩
  · rw [deposits_of_eq_getD s' sig, hdep, mapGet_insert_self, Option.getD_some,
      wrapping_add_eq_of_lt hbala]
  · unfold get_total_funds
    rw [htf, wrapping_add_eq_of_lt htota]
  · unfold get_unpaid_funding_amount
    rw [huf, wrapping_sub_eq_of_le ha (by omega)]
    omega
  · intro q hq
    rw [deposits_of_eq_getD s' q, deposits_of_eq_getD s q, hdep,
      mapGet_insert_ne _ _ _ _ hq]

/-- C5 witness: bob deposits 1 yoctoNEAR into the fresh escrow at time 5;
his balance and the aggregates move by exactly 1 and carol is untouched. -/
theorem deposit_spec_witness :
    deposits_of sOne "bob.near" = deposits_of sInit "bob.near" + 1
  ∧ get_total_funds sOne = get_total_funds sInit + 1
  ∧ get_unpaid_funding_amount sOne + 1 = get_unpaid_funding_amount sInit
  ∧ deposits_of sOne "carol.near" = deposits_of sInit "carol.near" := by
  have h := deposit_spec sInit "escrow.near" "bob.near" 1 5 sOne (by decide) (by decide)
  exact ⟨h.1, h.2.1, h.2.2.1, h.2.2.2 "carol.near" (by decide)⟩

/-- C6: `withdraw` is idempotent. From an invariant-satisfying state where
withdrawal is allowed, the first call by `p` transfers `deposits_of s p`
and zeroes `p`'s ledger entry; a second call in the same phase succeeds,
transfers 0 and leaves `p`'s balance, `total_funds` and
`unpaid_funding_amount` unchanged; a payee with no recorded deposit is
not an error and transfers 0. -/
theorem withdraw_idem (s : EscrowState) (p : AccountId) (now : Nat)
    (hInv : Inv s) (hallow : is_withdrawal_allowed s now = true) :
    withdraw s p now = Except.ok (deposits_of s p, wdState s p)
  ∧ deposits_of (wdState s p) p = 0
  ∧ withdraw (wdState s p) p now = Except.ok (0, wdState (wdState s p) p)
  ∧ deposits_of (wdState (wdState s p) p) p = 0
  ∧ (wdState (wdState s p) p).total_funds = (wdState s p).total_funds
  ∧ (wdState (wdState s p) p).unpaid_funding_amount = (wdState s p).unpaid_funding_amount
  ∧ (mapGet s.deposits p = none → deposits_of s p = 0) := by
  obtain ⟨hM, hsum, hle, hun⟩ := hInv
  have hreach : is_funding_reached s = false := by
    unfold is_withdrawal_allowed at hallow
    simp only [Bool.and_eq_true, Bool.not_eq_true'] at hallow
    exact hallow.2
  have hexp : has_contract_expired s now = true := by
    unfold is_withdrawal_allowed at hallow
    simp only [Bool.and_eq_true] at hallow
    exact hallow.1
  have htot : s.total_funds < s.funding_amount_limit := by
    unfold is_funding_reached get_funding_amount_limit get_total_funds at hreach
    simpa using hreach
  have hbal : deposits_of s p ≤ s.total_funds := by
    rw [deposits_of_eq_getD, ← hsum]
    exact getD_le_sumVals _ _
  have hdw : (wdState s p).deposits = mapInsert s.deposits p 0 := rfl
  have hdw2 : (wdState (wdState s p) p).deposits =
      mapInsert (wdState s p).deposits p 0 := rfl
  have hz : deposits_of (wdState s p) p = 0 := by
    rw [deposits_of_eq_getD, hdw, mapGet_insert_self, Option.getD_some]
  have ht1 : (wdState s p).total_funds = s.total_funds - deposits_of s p := by
    show wrapping_sub s.total_funds (deposits_of s p) = s.total_funds - deposits_of s p
    exact wrapping_sub_eq_of_le hbal (by omega)
  have hu1 : (wdState s p).unpaid_funding_amount =
      s.unpaid_funding_amount + deposits_of s p := by
    show wrapping_add s.unpaid_funding_amount (deposits_of s p) =
      s.unpaid_funding_amount + deposits_of s p
    exact wrapping_add_eq_of_lt (by omega)
  have hallow1 : is_withdrawal_allowed (wdState s p) now = true := by
    unfold is_withdrawal_allowed has_contract_expired is_funding_reached
      get_funding_amount_limit get_total_funds
    have he : (wdState s p).expires_at = s.expires_at := rfl
    have hl : (wdState s p).funding_amount_limit = s.funding_amount_limit := rfl
    rw [he, hl, ht1]
    unfold has_contract_expired at hexp
    simp only [Bool.and_eq_true, decide_eq_true_eq, Bool.not_eq_true',
      decide_eq_false_iff_not, not_le]
    constructor
    · simpa using hexp
    · omega
  refine ⟨(withdraw_ok_iff s p now _).mpr ⟨hallow, rfl⟩, hz, ?_, ?_, ?_, ?_, ?_⟩
  · have h2 := (withdraw_ok_iff (wdState s p) p now _).mpr ⟨hallow1, rfl⟩
    rw [hz] at h2
    exact h2
  · rw [deposits_of_eq_getD, hdw2, mapGet_insert_self, Option.getD_some]
  · show wrapping_sub (wdState s p).total_funds (deposits_of (wdState s p) p) =
      (wdState s p).total_funds
    rw [hz, ht1]
    exact wrapping_sub_eq_of_le (Nat.zero_le _) (by omega)
  · show wrapping_add (wdState s p).unpaid_funding_amount (deposits_of (wdState s p) p) =
      (wdState s p).unpaid_funding_amount
    rw [hz, hu1]
    exact wrapping_add_eq_of_lt (by omega)
  · intro hnone
    rw [deposits_of_eq_getD, hnone, Option.getD_none]

/-- C6 witness: bob holds 3 yoctoNEAR in `sB`; at time 11 the first
withdraw transfers 3 and zeroes him, the second transfers 0, and a
withdraw by dave (no deposit) transfers 0. -/
theorem withdraw_idem_witness :
    withdraw sB "bob.near" 11 = Except.ok (deposits_of sB "bob.near", wdState sB "bob.near")
  ∧ deposits_of (wdState sB "bob.near") "bob.near" = 0
  ∧ withdraw (wdState sB "bob.near") "bob.near" 11 =
      Except.ok (0, wdState (wdState sB "bob.near") "bob.near")
  ∧ deposits_of sB "dave.near" = 0 := by
  have h := withdraw_idem sB "bob.near" 11 (by decide) (by decide)
  have h2 := withdraw_idem sB "dave.near" 11 (by decide) (by decide)
  exact ⟨h.1, h.2.1, h.2.2.1, h2.2.2.2.2.2.2 (by decide)⟩

/-- C7 counterexample: the claim says the four deposit precondition
violations carry pairwise distinct error codes, in particular that the
headroom-exceeded rejection is distinguishable from the phase-violation
rejection. Both rejections below produce the SAME code
`ERR_DEPOSIT_NOT_ALLOWED`: at time 11 `sInit` is expired (phase
violation), while at time 5 deposits are allowed but the attached amount
exceeds the headroom. -/
theorem deposit_error_codes_cex :
    is_deposit_allowed sInit 11 = false
  ∧ deposit sInit "escrow.near" "bob.near" 1 11 = Except.error "ERR_DEPOSIT_NOT_ALLOWED"
  ∧ is_deposit_allowed sInit 5 = true
  ∧ sInit.unpaid_funding_amount < FT_ATTACHED_DEPOSIT + 1
  ∧ deposit sInit "escrow.near" "bob.near" (FT_ATTACHED_DEPOSIT + 1) 5 =
      Except.error "ERR_DEPOSIT_NOT_ALLOWED" := by
  decide

/-- C7 (amended): self-deposit fails with `ERR_OWNER_SHOULD_NOT_DEPOSIT`,
a zero attached amount with `ERR_DEPOSIT_SHOULD_NOT_BE_0`, and the two
remaining violations — phase violation and headroom exceeded — both fail
with the single shared code `ERR_DEPOSIT_NOT_ALLOWED`: only three
distinct codes exist, not four. -/
theorem deposit_error_codes (s : EscrowState) (cur sig : AccountId) (a now : Nat) :
    (cur = sig → deposit s cur sig a now = Except.error "ERR_OWNER_SHOULD_NOT_DEPOSIT")
  ∧ (cur ≠ sig → a = 0 → deposit s cur sig a now = Except.error "ERR_DEPOSIT_SHOULD_NOT_BE_0")
  ∧ (cur ≠ sig → a ≠ 0 → is_deposit_allowed s now = false →
      deposit s cur sig a now = Except.error "ERR_DEPOSIT_NOT_ALLOWED")
  ∧ (cur ≠ sig → a ≠ 0 → s.unpaid_funding_amount < a →
      deposit s cur sig a now = Except.error "ERR_DEPOSIT_NOT_ALLOWED") := by
  refine ⟨?_, ?_, ?_, ?_⟩
  · intro h1
    simp [deposit, h1]
  · intro h1 h2
    simp [deposit, h1, h2]
  · intro h1 h2 h3
    simp [deposit, h1, h2, h3]
  · intro h1 h2 h3
    unfold deposit
    rw [if_neg h1, if_neg h2]
    split_ifs with hda hdu
    · rfl
    · rfl
    · exact absurd h3 (by simpa [get_unpaid_funding_amount] using hdu)

/-- C7 witness: the four violations evaluated on concrete calls; the last
two surface the same code. -/
theorem deposit_error_codes_witness :
    deposit sInit "bob.near" "bob.near" 1 5 = Except.error "ERR_OWNER_SHOULD_NOT_DEPOSIT"
  ∧ deposit sInit "escrow.near" "bob.near" 0 5 = Except.error "ERR_DEPOSIT_SHOULD_NOT_BE_0"
  ∧ deposit sInit "escrow.near" "bob.near" 1 11 = Except.error "ERR_DEPOSIT_NOT_ALLOWED"
  ∧ deposit sInit "escrow.near" "bob.near" (FT_ATTACHED_DEPOSIT + 1) 5 =
      Except.error "ERR_DEPOSIT_NOT_ALLOWED" :=
  ⟨(deposit_error_codes sInit "bob.near" "bob.near" 1 5).1 rfl,
   (deposit_error_codes sInit "escrow.near" "bob.near" 0 5).2.1 (by decide) rfl,
   (deposit_error_codes sInit "escrow.near" "bob.near" 1 11).2.2.1
     (by decide) (by decide) (by decide),
   (deposit_error_codes sInit "escrow.near" "bob.near" (FT_ATTACHED_DEPOSIT + 1) 5).2.2.2
     (by decide) (by decide) (by decide)⟩

/-- C8: `is_withdrawal_allowed` ignores `is_dao_created`; a fully
successful delegation callback leaves every recorded balance unchanged
and, because it zeroes `total_funds` below the (positive) funding limit,
withdrawal is allowed again in every expired state of the post-callback
contract — even though the funds were already delegated. -/
theorem withdrawal_after_delegation (s t : EscrowState) (name : String)
    (s' : EscrowState) (b : Bool)
    (hlim : FT_ATTACHED_DEPOSIT ≤ s.funding_amount_limit)
    (hok : on_delegate_callback s name
      [PromiseResult.Successful "true", PromiseResult.Successful "true"] =
      Except.ok (true, s')) :
    (∀ now, is_withdrawal_allowed { t with is_dao_created := b } now =
      is_withdrawal_allowed t now)
  ∧ s'.deposits = s.deposits
  ∧ (∀ now, has_contract_expired s' now = true → is_withdrawal_allowed s' now = true) := by
  have h0 : on_delegate_callback s name
      [PromiseResult.Successful "true", PromiseResult.Successful "true"] =
      Except.ok (true, { s with total_funds := 0, dao_name := name, is_dao_created := true }) :=
    rfl
  rw [h0] at hok
  simp only [Except.ok.injEq, Prod.mk.injEq, true_and] at hok
  subst hok
  refine ⟨?_, rfl, ?_⟩
  · intro now
    unfold is_withdrawal_allowed has_contract_expired is_funding_reached
      get_funding_amount_limit get_total_funds
    rfl
  · intro now hx
    have hFT : 0 < FT_ATTACHED_DEPOSIT := by decide
    unfold is_withdrawal_allowed
    rw [hx]
    unfold is_funding_reached get_funding_amount_limit get_total_funds
    simp only [Bool.true_and, Bool.not_eq_true', decide_eq_false_iff_not, not_le]
    show 0 < s.funding_amount_limit
    omega

/-- C8 witness: after delegating `sFunded`, the state `sDelegated` keeps
bob's balance and allows withdrawal at time 11. -/
theorem withdrawal_after_delegation_witness :
    is_withdrawal_allowed { sInit with is_dao_created := true } 11 =
      is_withdrawal_allowed sInit 11
  ∧ sDelegated.deposits = sFunded.deposits
  ∧ is_withdrawal_allowed sDelegated 11 = true := by
  have h := withdrawal_after_delegation sFunded sInit "dao1" sDelegated true
    (by decide) (by decide)
  exact ⟨h.1 11, h.2.1, h.2.2 11 (by decide)⟩

/-- C9: a successful `withdraw` writes an explicit 0 for the caller's key
rather than removing it: afterwards the caller still appears in
`get_deposits` with balance 0 and in the `get_deposit_accounts` roster,
and no other key's binding changes. -/
theorem withdraw_frame (s : EscrowState) (p : AccountId) (now : Nat) (a : Nat)
    (s' : EscrowState) (hok : withdraw s p now = Except.ok (a, s')) :
    mapGet (get_deposits s') p = some 0
  ∧ p ∈ get_deposit_accounts s'
  ∧ ∀ q, q ≠ p → mapGet (get_deposits s') q = mapGet (get_deposits s) q := by
  obtain ⟨hallow, hr⟩ := (withdraw_ok_iff _ _ _ _).mp hok
  obtain ⟨-, rfl⟩ := Prod.mk.injEq .. ▸ Prod.ext_iff.mp hr
  refine ⟨mapGet_insert_self _ _ _, ?_, fun q hq => mapGet_insert_ne _ _ _ _ hq⟩
  exact mem_keys_of_mapGet_some (mapGet_insert_self s.deposits p 0)

/-- C9 witness: after bob withdraws from `sB` at time 11 he still appears
with balance 0 and in the roster, and dave's absence is preserved. -/
theorem withdraw_frame_witness :
    mapGet (get_deposits (wdState sB "bob.near")) "bob.near" = some 0
  ∧ "bob.near" ∈ get_deposit_accounts (wdState sB "bob.near")
  ∧ mapGet (get_deposits (wdState sB "bob.near")) "dave.near" =
      mapGet (get_deposits sB) "dave.near" := by
  have h := withdraw_frame sB "bob.near" 11 (deposits_of sB "bob.near")
    (wdState sB "bob.near") (by decide)
  exact ⟨h.1, h.2.1, h.2.2 "dave.near" (by decide)⟩

/-- C10: in every reachable contract the funding limit is at least
`FT_ATTACHED_DEPOSIT` (which is positive), so the divisor in
`get_shares_of` is never zero; and `get_shares_of` returns 0 for an
account with no recorded deposit. -/
theorem get_shares_of_safe (s : EscrowState) (h : Reach s) :
    0 < FT_ATTACHED_DEPOSIT
  ∧ FT_ATTACHED_DEPOSIT ≤ s.funding_amount_limit
  ∧ 0 < s.funding_amount_limit
  ∧ ∀ p, mapGet s.deposits p = none → get_shares_of s p = 0 := by
  have hlim := Reach_limit s h
  have hFT : 0 < FT_ATTACHED_DEPOSIT := by decide
  refine ⟨hFT, hlim, by omega, ?_⟩
  intro p hp
  unfold get_shares_of
  rw [hp]

/-- C10 witness: the freshly constructed `sInit` is reachable, its limit
is positive, and dave (no deposit) has 0 shares. -/
theorem get_shares_of_safe_witness :
    0 < FT_ATTACHED_DEPOSIT
  ∧ FT_ATTACHED_DEPOSIT ≤ sInit.funding_amount_limit
  ∧ 0 < sInit.funding_amount_limit
  ∧ get_shares_of sInit "dave.near" = 0 := by
  have h := get_shares_of_safe sInit (Reach.init 10 FT_ATTACHED_DEPOSIT
    "dao-factory.near" "ft-factory.near" "metadata.json" sInit (by decide) (by decide))
  exact ⟨h.1, h.2.1, h.2.2.1, h.2.2.2 "dave.near" (by decide)⟩

end ConditionalEscrow
